import Mathlib

/-!
# Patch Plausibility Evaluation Engine — verification development

Shallow embedding of the patch-evaluation scripts of the AgentIssue-Bench
repository:

* `AgentIssue-Bench/eval_patches.py`           (the "original" evaluator),
* `AgentIssue-Bench/eval_patches_flexible.py`  (the "flexible" evaluator),
* `evaluate_patches.py`                        (the top-level orchestrator),
* `AgentIssue-Bench/auto-code-rover/evaluate_patches.py`
                                               (the backup/restore evaluator).

Subprocess executions are modelled by the event the `subprocess.run` call
produces (a completed process with return code / captured output, a
`TimeoutExpired`, or some other raised exception); the scripts' control
flow over those events is translated directly.  A Python exception that no
handler catches aborts the interpreter, which we model with `Except`:
`.error e` means the script died with uncaught exception `e`.
-/

deriving instance DecidableEq for Except

namespace AgentBench

/-- Terminal labels a trial's log line can carry.  `SUCCESS`/`FAILED` come
from the classification branches, `TIMEOUT` from the flexible script's
`TimeoutExpired` handler, `ERROR` from its catch-all `except Exception`. -/
inductive Label
  | SUCCESS
  | FAILED
  | TIMEOUT
  | ERROR
deriving DecidableEq, Repr

/-- Raw result of a completed validation subprocess: `returncode`,
captured `stdout` and `stderr` (as `subprocess.run(capture_output=True)`
returns them). -/
structure RawResult where
  returncode : Int
  stdout : String
  stderr : String
deriving DecidableEq, Repr

/-- The event produced by a validation `subprocess.run` call: it completed
with a `RawResult`, it raised `TimeoutExpired`, or it raised some other
exception. -/
inductive RunEvent
  | completed (r : RawResult)
  | timedOut
  | raised (e : String)
deriving DecidableEq, Repr

/-- Substring test on `List Char`, the model of Python's `pat in s`. -/
def containsSubAux (pat : List Char) : List Char → Bool
  | [] => pat.isEmpty
  | c :: rest => pat.isPrefixOf (c :: rest) || containsSubAux pat rest

/-- `containsSub s pat` models Python's `pat in s` on strings. -/
def containsSub (s pat : String) : Bool :=
  containsSubAux pat.data s.data

/-- `strEndsWith s suffix` models Python's `s.endswith(suffix)`. -/
def strEndsWith (s suffix : String) : Bool :=
  suffix.data.isSuffixOf s.data

/-- Per-character lowercasing, the model of Python's `.lower()` (the
docker error messages scanned are ASCII). -/
def lowerStr (s : String) : String :=
  String.mk (s.data.map Char.toLower)

/-- Truthiness of Python's `cid.strip()`: the string contains some
non-whitespace character. -/
def stripNonEmpty (s : String) : Bool :=
  s.data.any (fun c => !c.isWhitespace)

/-- Success markers checked in the general (non-agixt) branch of both
evaluator scripts, in source order. -/
def baseSuccessMarkers : List String :=
  ["PATCH SUCCEEDED", "PATCH SUCCESSFULLY VERIFIED", "FIX SUCCESSFULLY VERIFIED",
   "NO BUG", "FIX CONFIRMED", "PATCH VERIFIED"]

/-- The `agixt_1369` branch additionally accepts `"patched succeeded"`. -/
def agixtSuccessMarkers : List String :=
  baseSuccessMarkers ++ ["patched succeeded"]

/-- Classification of a completed validation run, common to every branch of
both evaluator scripts: `if "FAILED" in result.stdout or
result.returncode != 0:` record FAILED; `elif` some success marker occurs
in stdout record SUCCESS; `else` record FAILED.  Only `stdout` is ever
inspected. -/
def classifyCompleted (markers : List String) (r : RawResult) : Label :=
  if containsSub r.stdout "FAILED" || r.returncode != 0 then .FAILED
  else if markers.any (fun m => containsSub r.stdout m) then .SUCCESS
  else .FAILED

/-- General branch of `eval_patches_flexible.py`: completed runs are
classified, `TimeoutExpired` is caught and logged as TIMEOUT, and the
catch-all `except Exception` logs ERROR.  Every event yields a label; this
branch can never abort the run. -/
def flexibleGeneralTrial : RunEvent → Label
  | .completed r => classifyCompleted baseSuccessMarkers r
  | .timedOut => .TIMEOUT
  | .raised _ => .ERROR

/-- `agixt_1369` branch of `eval_patches_flexible.py`: the
`subprocess.run(..., timeout=300)` call sits outside any `try`, so a
`TimeoutExpired` or any other exception propagates and kills the script. -/
def flexibleAgixtTrial : RunEvent → Except String Label
  | .completed r => .ok (classifyCompleted agixtSuccessMarkers r)
  | .timedOut => .error "TimeoutExpired"
  | .raised e => .error e

/-- General branch of `eval_patches.py`: only `TimeoutExpired` is caught,
and its handler logs the trial as FAILED (`"❌ Patch ...: FAILED"`), not as
a separate timeout outcome; any other exception propagates and kills the
script. -/
def originalGeneralTrial : RunEvent → Except String Label
  | .completed r => .ok (classifyCompleted baseSuccessMarkers r)
  | .timedOut => .ok .FAILED
  | .raised e => .error e

/-- `agixt_1369` branch of `eval_patches.py`: `subprocess.run` is called
with no `timeout` argument and no `try`, so `TimeoutExpired` can in fact
never arise at this call site (see `originalAgixtTimeoutSecs`), and any
exception kills the script. -/
def originalAgixtTrial : RunEvent → Except String Label
  | .completed r => .ok (classifyCompleted agixtSuccessMarkers r)
  | .timedOut => .error "TimeoutExpired"
  | .raised e => .error e

/-- `timeout=` argument of the validation `subprocess.run` in the general
branch of `eval_patches.py`. -/
def originalGeneralTimeoutSecs : Option Nat := some 300

/-- `timeout=` argument of the validation `subprocess.run` in the
`agixt_1369` branch of `eval_patches.py`: none is passed, the command may
run forever. -/
def originalAgixtTimeoutSecs : Option Nat := none

/-- `timeout=` argument of the validation `subprocess.run` in the general
branch of `eval_patches_flexible.py`. -/
def flexibleGeneralTimeoutSecs : Option Nat := some 300

/-- `timeout=` argument of the validation `subprocess.run` in the
`agixt_1369` branch of `eval_patches_flexible.py`. -/
def flexibleAgixtTimeoutSecs : Option Nat := some 300

/-- The classification rule exactly as the specification states it
(*Classification correctness*): SUCCESS iff the exit code equals the
configured success code 0 and no failure marker `"FAILED"` appears in
stdout **or stderr**.  Stated from the spec's words, to be compared with
`classifyCompleted`, which is translated from the source. -/
def specClaimSuccess (r : RawResult) : Bool :=
  r.returncode == 0 && !containsSub r.stdout "FAILED" && !containsSub r.stderr "FAILED"

example : containsSub "xxFAILEDyy" "FAILED" = true := by decide
example : containsSub "PATCH SUCCEEDED" "FAILED" = false := by decide
example : classifyCompleted baseSuccessMarkers ⟨0, "PATCH SUCCEEDED", ""⟩ = .SUCCESS := by decide
example : classifyCompleted baseSuccessMarkers ⟨0, "all good", ""⟩ = .FAILED := by decide
example : classifyCompleted baseSuccessMarkers ⟨0, "FAILED: assertion", ""⟩ = .FAILED := by decide
example : classifyCompleted baseSuccessMarkers ⟨1, "PATCH SUCCEEDED", ""⟩ = .FAILED := by decide

/-! ## Image pulls -/

/-- The event produced by a `docker pull` subprocess: completion with a
return code and captured stderr, `TimeoutExpired`, or another raised
exception. -/
inductive PullEvent
  | completed (returncode : Int) (stderr : String)
  | timedOut
  | raised (e : String)
deriving DecidableEq, Repr

/-- `pull_image_safe` of `eval_patches_flexible.py`: one
`subprocess.run(["docker", "pull", ...], timeout=60)`; returns `True`
exactly when the pull completed with return code 0.  Every failure —
including rate limiting — returns `False` after that single attempt;
there is no retry loop and no backoff anywhere in the function or its
caller. -/
def pull_image_safe : PullEvent → Bool
  | .completed rc _ => rc == 0
  | .timedOut => false
  | .raised _ => false

/-- The reason category `pull_image_safe` prints before skipping, from its
branch on `result.stderr.lower()`. -/
inductive SkipReason
  | rateLimit
  | archUnsupported
  | pullFailed
  | pullTimeout
  | pullError
deriving DecidableEq, Repr

/-- Which warning branch of `pull_image_safe` fires for a failed pull
(`none` for a successful pull).  The category affects only the printed
message, never the control flow: all failures skip the tag. -/
def pullSkipReason : PullEvent → Option SkipReason
  | .completed rc msg =>
      if rc == 0 then none
      else
        let em := lowerStr msg
        if containsSub em "rate limit" then some .rateLimit
        else if containsSub em "arm64" || containsSub em "no matching manifest" then
          some .archUnsupported
        else some .pullFailed
  | .timedOut => some .pullTimeout
  | .raised _ => some .pullError

/-- `timeout=` argument of the `docker pull` call in `pull_image_safe`. -/
def flexiblePullTimeoutSecs : Option Nat := some 60

/-- `eval_patches.py` pulls with `subprocess.run(["docker", "pull", ...],
check=True)` and no timeout: a non-zero return code raises
`CalledProcessError`, and any raised exception propagates — there is no
handler, so the whole run dies. -/
def originalPull : PullEvent → Except String Unit
  | .completed rc _ => if rc == 0 then .ok () else .error "CalledProcessError"
  | .timedOut => .error "TimeoutExpired"
  | .raised e => .error e

/-! ## Run loops

A `TagRun` is one directory of `Patches/`: its name (the docker tag), its
directory entries each paired with the event the validation subprocess for
that entry would produce, whether `check_image_exists` finds the image
locally, and the event a `docker pull` would produce. -/

/-- One tag directory under `Patches/`, together with the external events
its subprocess calls would observe. -/
structure TagRun where
  name : String
  files : List (String × RunEvent)
  localExists : Bool
  pullEvent : PullEvent
deriving DecidableEq, Repr

/-- `patch_files = [f for f in os.listdir(patch_dir) if f.endswith(".patch")]` -/
def patchFilesOf (t : TagRun) : List (String × RunEvent) :=
  t.files.filter (fun pf => strEndsWith pf.1 ".patch")

/-- Image availability in the flexible script: `check_image_exists` first,
`pull_image_safe` only if the image is absent locally. -/
def imageAvailableFlexible (t : TagRun) : Bool :=
  t.localExists || pull_image_safe t.pullEvent

/-- Number of `docker pull` invocations the flexible script issues for a
tag: zero when the image is already local, otherwise the single call
inside `pull_image_safe`.  No code path pulls twice. -/
def pullAttemptsFlexible (t : TagRun) : Nat :=
  if t.localExists then 0 else 1

/-- The trial body the flexible script executes for one patch file, as
selected by `if tag == "agixt_1369":`. -/
def flexibleTrialFor (name : String) (ev : RunEvent) : Except String Label :=
  if name == "agixt_1369" then flexibleAgixtTrial ev
  else .ok (flexibleGeneralTrial ev)

/-- The per-patch loop of the flexible script: each patch file is run
through the branch chosen by the tag name.  An abort in the agixt branch
(uncaught `TimeoutExpired` or other exception) kills the script, so the
remaining patches never run. -/
def runPatchesFlexible (name : String) : List (String × RunEvent) →
    Except String (List (String × Label))
  | [] => .ok []
  | (pf, ev) :: rest =>
    match flexibleTrialFor name ev with
    | .error e => .error e
    | .ok l =>
      match runPatchesFlexible name rest with
      | .error e => .error e
      | .ok rs => .ok ((pf, l) :: rs)

/-- Per-tag counters produced by the flexible script's loop body. -/
structure TagEval where
  records : List (String × Label)
  successCount : Nat
  totalCount : Nat
deriving DecidableEq, Repr

/-- How the flexible script disposed of one tag directory. -/
inductive TagResult
  | noPatches
  | skipped
  | evaluated (e : TagEval)
deriving DecidableEq, Repr

/-- One iteration of the flexible script's tag loop: skip a directory with
no `.patch` files; when the image is neither local nor pullable, append
the tag to `skipped_tags` and `continue` — no per-patch work at all;
otherwise run every patch file. -/
def evalTagFlexible (t : TagRun) : Except String TagResult :=
  let pfs := patchFilesOf t
  if pfs.isEmpty then .ok .noPatches
  else if imageAvailableFlexible t then
    match runPatchesFlexible t.name pfs with
    | .error e => .error e
    | .ok rs => .ok (.evaluated
        { records := rs
          successCount := (rs.filter (fun pr => pr.2 == Label.SUCCESS)).length
          totalCount := pfs.length })
  else .ok .skipped

/-- Aggregate state of a completed flexible run: the trial log records
(tag, patch file, label), the skipped tags, and the global counters. -/
structure FlexReport where
  trialRecords : List (String × String × Label)
  skippedTags : List String
  globalSuccess : Nat
  globalTotal : Nat
deriving DecidableEq, Repr

/-- The whole flexible run over the (sorted) tag directory listing.
`.error` models the script dying on an uncaught exception before the
global summary is ever printed. -/
def runFlexible : List TagRun → Except String FlexReport
  | [] => .ok { trialRecords := [], skippedTags := [], globalSuccess := 0, globalTotal := 0 }
  | t :: rest =>
    match evalTagFlexible t, runFlexible rest with
    | .error e, _ => .error e
    | .ok _, .error e => .error e
    | .ok tr, .ok r =>
      match tr with
      | .noPatches => .ok r
      | .skipped => .ok { r with skippedTags := t.name :: r.skippedTags }
      | .evaluated e => .ok
          { trialRecords := e.records.map (fun pr => (t.name, pr.1, pr.2)) ++ r.trialRecords
            skippedTags := r.skippedTags
            globalSuccess := e.successCount + r.globalSuccess
            globalTotal := e.totalCount + r.globalTotal }

/-- `avg_score = success_count / total_count if total_count > 0 else 0`,
the per-tag score both scripts print. -/
def avgScore (successCount totalCount : Nat) : ℚ :=
  if 0 < totalCount then (successCount : ℚ) / (totalCount : ℚ) else 0

/-- Final `Overall plausible score` of the flexible script:
`global_success / global_total` when `global_total > 0`, otherwise the
`N/A (no patches tested)` branch (modelled as `none`). -/
def overallScoreFlexible (r : FlexReport) : Option ℚ :=
  if 0 < r.globalTotal then some ((r.globalSuccess : ℚ) / (r.globalTotal : ℚ)) else none

/-- Aggregate state of a completed `eval_patches.py` run.  `grandTotalAvg`
is the module-level `grand_total_avg` accumulator: the SUM of the per-tag
`avg_score` values, which is what the final `Plausible score:` line
prints. -/
structure OrigReport where
  trialRecords : List (String × String × Label)
  globalSuccess : Nat
  globalTotal : Nat
  grandTotalAvg : ℚ
deriving DecidableEq, Repr

/-- The per-patch loop of `eval_patches.py`. -/
def runPatchesOriginal (name : String) : List (String × RunEvent) →
    Except String (List (String × Label))
  | [] => .ok []
  | (pf, ev) :: rest =>
    match (if name == "agixt_1369" then originalAgixtTrial ev else originalGeneralTrial ev) with
    | .error e => .error e
    | .ok l =>
      match runPatchesOriginal name rest with
      | .error e => .error e
      | .ok rs => .ok ((pf, l) :: rs)

/-- One iteration of the tag loop of `eval_patches.py`: unlike the
flexible script there is no local-image check and no safety wrapper — the
tag is always pulled with `check=True`, and a pull failure kills the whole
run. -/
def evalTagOriginal (t : TagRun) : Except String (Option TagEval) :=
  let pfs := patchFilesOf t
  if pfs.isEmpty then .ok none
  else
    match originalPull t.pullEvent with
    | .error e => .error e
    | .ok _ =>
      match runPatchesOriginal t.name pfs with
      | .error e => .error e
      | .ok rs => .ok (some
          { records := rs
            successCount := (rs.filter (fun pr => pr.2 == Label.SUCCESS)).length
            totalCount := pfs.length })

/-- The whole `eval_patches.py` run. -/
def runOriginal : List TagRun → Except String OrigReport
  | [] => .ok { trialRecords := [], globalSuccess := 0, globalTotal := 0, grandTotalAvg := 0 }
  | t :: rest =>
    match evalTagOriginal t, runOriginal rest with
    | .error e, _ => .error e
    | .ok _, .error e => .error e
    | .ok te, .ok r =>
      match te with
      | none => .ok r
      | some e => .ok
          { trialRecords := e.records.map (fun pr => (t.name, pr.1, pr.2)) ++ r.trialRecords
            globalSuccess := e.successCount + r.globalSuccess
            globalTotal := e.totalCount + r.globalTotal
            grandTotalAvg := avgScore e.successCount e.totalCount + r.grandTotalAvg }

/-- The number printed by the final `Plausible score:` line of
`eval_patches.py`: the accumulated `grand_total_avg`. -/
def finalScoreOriginal (r : OrigReport) : ℚ := r.grandTotalAvg

/-- Number of trial records of the report for a given (tag, patch file)
pair. -/
def pairCount (r : FlexReport) (tag patch : String) : Nat :=
  r.trialRecords.countP (fun x => x.1 == tag && x.2.1 == patch)

/-! ## Orchestrator (`evaluate_patches.py`) -/

/-- Exit status of the child evaluator process the orchestrator launches
(the flexible script, preferred when present): `0` when the script runs to
completion, non-zero when it dies on an uncaught exception. -/
def childExitCode (tags : List TagRun) : Int :=
  match runFlexible tags with
  | .ok _ => 0
  | .error _ => 1

/-- `run_evaluation` of `evaluate_patches.py`: launches the child with
`check=False` and returns `result.returncode == 0`; an exception while
launching is caught and returns `False` (modelled by `none`). -/
def run_evaluation (child : Option Int) : Bool :=
  match child with
  | some rc => rc == 0
  | none => false

/-- `main` of `evaluate_patches.py`: `sys.exit(1)` when `check_setup`
fails, `sys.exit(0)` when the user cancels, otherwise
`sys.exit(0 if run_evaluation() else 1)`. -/
def mainExitCode (setupOk : Bool) (cancelled : Bool) (child : Option Int) : Int :=
  if !setupOk then 1
  else if cancelled then 0
  else if run_evaluation child then 0 else 1

/-! ## Timeout cleanup handler -/

/-- The shell command whose output the `TimeoutExpired` handlers of both
evaluator scripts iterate over: it lists EVERY container running on the
daemon, with no filter tying it to the timed-out trial. -/
def dockerPsQuery : String := "docker ps -q"

/-- The commands the `TimeoutExpired` handler issues: for every line of
`docker ps -q` output that is non-blank (`if cid.strip():`), a
`docker rm -f` of that container. -/
def timeoutCleanupCommands (containerIds : List String) : List (List String) :=
  (containerIds.filter (fun cid => stripNonEmpty cid)).map
    (fun cid => ["docker", "rm", "-f", cid])

/-! ## Docker invocation of the per-patch trials -/

/-- The `docker run` argument vector built by the general branch of both
evaluator scripts: an ephemeral container (`--rm`) whose only volume mount
is the patch directory at `/patches`. -/
def dockerRunCmdGeneral (patchDirAbs patchFile dockerImage : String) : List String :=
  ["docker", "run", "--rm",
   "--entrypoint", "bash",
   "-v", patchDirAbs ++ ":/patches",
   "-e", "OPENAI_API_KEY=api-key",
   "-e", "OPENAI_API_BASE=api-base-url",
   dockerImage,
   "-c", "/usr/local/bin/run_test_entrypoint.sh apply_patch /patches/" ++ patchFile ++
     " && /usr/local/bin/run_test_entrypoint.sh test_patched"]

/-! ## Auto-code-rover evaluator (`auto-code-rover/evaluate_patches.py`)

The canonical task repository lives at `meta["setup_info"]["repo_path"]`;
the backup copy lives next to it.  We model the two paths' contents as an
abstract filesystem: `repo` is the content at `repo_path`, `backup` the
content at `repo_path_backup` (`none` = the directory does not exist).
The patch, the `black`/`isort` refactor, and whatever `reproduce.py` does
to its working directory are arbitrary content transformations. -/

/-- Contents of the two directories `apply_patch_and_check` touches. -/
structure RepoFS (α : Type) where
  repo : Option α
  backup : Option α
deriving DecidableEq, Repr

/-- `save_repo_state`: remove any stale backup, then `copytree(repo_path,
backup_path)`. -/
def save_repo_state {α : Type} (fs : RepoFS α) : RepoFS α :=
  { fs with backup := fs.repo }

/-- `restore_repo_state`: `rmtree(repo_path)` if present,
`copytree(backup_path, repo_path)`, then `rmtree(backup_path)`. -/
def restore_repo_state {α : Type} (fs : RepoFS α) : RepoFS α :=
  { repo := fs.backup, backup := none }

/-- Which control path one `apply_patch_and_check` call takes:
early return before any backup (missing patch file or missing meta.json);
`git apply` raising `CalledProcessError`; some other exception raised
after the patch was applied; or the full path through `refactor_project`
and `run_reproduce_script` (which itself returns a `Bool` and never
raises). -/
inductive AcrMode
  | noPatchFile
  | noMetaFile
  | gitApplyFails
  | raisedAfterApply
  | cleanRun (reproduceOk : Bool)
deriving DecidableEq, Repr

/-- `apply_patch_and_check`, as (plausible-flag, final filesystem).  The
`finally` block runs `restore_repo_state` on every path that entered the
`try`. -/
def apply_patch_and_check {α : Type} (patch refac repro : α → α) (m : AcrMode)
    (fs : RepoFS α) : Bool × RepoFS α :=
  match m with
  | .noPatchFile => (false, fs)
  | .noMetaFile => (false, fs)
  | .gitApplyFails => (false, restore_repo_state (save_repo_state fs))
  | .raisedAfterApply =>
      let fs1 := save_repo_state fs
      let fs2 := { fs1 with repo := fs1.repo.map patch }
      (false, restore_repo_state fs2)
  | .cleanRun ok =>
      let fs1 := save_repo_state fs
      let fs2 := { fs1 with repo := fs1.repo.map patch }
      let fs3 := { fs2 with repo := fs2.repo.map refac }
      let fs4 := { fs3 with repo := fs3.repo.map repro }
      (ok, restore_repo_state fs4)

/-- The sequence of filesystem states one `apply_patch_and_check` call
passes through, first to last, including every intermediate state in
which the canonical repository has been mutated. -/
def acrTrialStates {α : Type} (patch refac repro : α → α) (m : AcrMode)
    (fs : RepoFS α) : List (RepoFS α) :=
  match m with
  | .noPatchFile => [fs]
  | .noMetaFile => [fs]
  | .gitApplyFails =>
      let fs1 := save_repo_state fs
      [fs, fs1, restore_repo_state fs1]
  | .raisedAfterApply =>
      let fs1 := save_repo_state fs
      let fs2 := { fs1 with repo := fs1.repo.map patch }
      [fs, fs1, fs2, restore_repo_state fs2]
  | .cleanRun _ =>
      let fs1 := save_repo_state fs
      let fs2 := { fs1 with repo := fs1.repo.map patch }
      let fs3 := { fs2 with repo := fs2.repo.map refac }
      let fs4 := { fs3 with repo := fs3.repo.map repro }
      [fs, fs1, fs2, fs3, fs4, restore_repo_state fs4]

/-! ## Structural lemmas about the flexible run loop -/

/-- The labels the per-patch loop returns are attached to exactly the
patch files it was given, in order. -/
theorem runPatchesFlexible_names (name : String) :
    ∀ (pfs : List (String × RunEvent)) (rs : List (String × Label)),
      runPatchesFlexible name pfs = Except.ok rs →
      rs.map Prod.fst = pfs.map Prod.fst := by
  intro pfs
  induction pfs with
  | nil =>
    intro rs h
    simp only [runPatchesFlexible] at h
    injection h with h
    subst h
    rfl
  | cons pfe rest ih =>
    obtain ⟨pf, ev⟩ := pfe
    intro rs h
    simp only [runPatchesFlexible] at h
    cases hA : flexibleTrialFor name ev with
    | error e => rw [hA] at h; simp at h
    | ok l =>
      rw [hA] at h
      cases hR : runPatchesFlexible name rest with
      | error e => rw [hR] at h; simp at h
      | ok rs' =>
        rw [hR] at h
        simp only [] at h
        injection h with h
        subst h
        simp [ih rs' hR]

/-- If the per-patch loop never hits the agixt branch with an abortive
event, it completes. -/
theorem runPatchesFlexible_ok (name : String) :
    ∀ pfs : List (String × RunEvent),
      ((name == "agixt_1369") = false ∨
        ∀ pe ∈ pfs, ∃ rr, pe.2 = RunEvent.completed rr) →
      ∃ rs, runPatchesFlexible name pfs = Except.ok rs := by
  intro pfs
  induction pfs with
  | nil => intro _; exact ⟨[], rfl⟩
  | cons pfe rest ih =>
    obtain ⟨pf, ev⟩ := pfe
    intro hc
    have htrial : ∃ l, flexibleTrialFor name ev = Except.ok l := by
      rcases hc with hn | hall
      · exact ⟨flexibleGeneralTrial ev, by simp [flexibleTrialFor, hn]⟩
      · obtain ⟨rr, hrr⟩ := hall (pf, ev) (List.mem_cons_self _ _)
        simp only [] at hrr
        subst hrr
        unfold flexibleTrialFor
        by_cases hn : (name == "agixt_1369") = true
        · rw [if_pos hn]
          exact ⟨classifyCompleted agixtSuccessMarkers rr, rfl⟩
        · rw [if_neg hn]
          exact ⟨flexibleGeneralTrial (RunEvent.completed rr), rfl⟩
    obtain ⟨l, hl⟩ := htrial
    obtain ⟨rs, hrs⟩ : ∃ rs, runPatchesFlexible name rest = Except.ok rs := by
      apply ih
      rcases hc with hn | hall
      · exact .inl hn
      · exact .inr (fun pe hpe => hall pe (List.mem_cons_of_mem _ hpe))
    exact ⟨(pf, l) :: rs, by simp [runPatchesFlexible, hl, hrs]⟩

/-- Inversion of the tag loop body for an available, non-empty tag. -/
theorem evalTagFlexible_available {t : TagRun}
    (hne : (patchFilesOf t).isEmpty = false)
    (hav : imageAvailableFlexible t = true)
    {tr : TagResult} (h : evalTagFlexible t = Except.ok tr) :
    ∃ rs, runPatchesFlexible t.name (patchFilesOf t) = Except.ok rs ∧
      tr = TagResult.evaluated
        { records := rs
          successCount := (rs.filter (fun pr => pr.2 == Label.SUCCESS)).length
          totalCount := (patchFilesOf t).length } := by
  simp only [evalTagFlexible, hne, hav] at h
  simp only [Bool.false_eq_true, if_false, if_true] at h
  cases hR : runPatchesFlexible t.name (patchFilesOf t) with
  | error e => rw [hR] at h; simp at h
  | ok rs =>
    rw [hR] at h
    simp only [] at h
    injection h with h
    exact ⟨rs, rfl, h.symm⟩

/-- The tag loop body completes whenever every agixt-named tag only sees
completed validation subprocesses. -/
theorem evalTagFlexible_ok {t : TagRun}
    (hc : t.name = "agixt_1369" →
      ∀ pe ∈ patchFilesOf t, ∃ rr, pe.2 = RunEvent.completed rr) :
    ∃ tr, evalTagFlexible t = Except.ok tr := by
  unfold evalTagFlexible
  by_cases h1 : (patchFilesOf t).isEmpty = true
  · exact ⟨TagResult.noPatches, by simp [h1]⟩
  · by_cases h2 : imageAvailableFlexible t = true
    · have hside : (t.name == "agixt_1369") = false ∨
          ∀ pe ∈ patchFilesOf t, ∃ rr, pe.2 = RunEvent.completed rr := by
        by_cases hn : t.name = "agixt_1369"
        · exact .inr (hc hn)
        · exact .inl (by simpa using hn)
      obtain ⟨rs, hrs⟩ := runPatchesFlexible_ok t.name (patchFilesOf t) hside
      refine ⟨TagResult.evaluated
        { records := rs
          successCount := (rs.filter (fun pr => pr.2 == Label.SUCCESS)).length
          totalCount := (patchFilesOf t).length }, ?_⟩
      simp [h1, h2, hrs]
    · exact ⟨TagResult.skipped, by simp [h1, h2]⟩

/-- The whole flexible run completes whenever every agixt-named tag only
sees completed validation subprocesses; errors in general-branch trials
and unavailable images never abort it. -/
theorem runFlexible_ok :
    ∀ tags : List TagRun,
      (∀ t ∈ tags, t.name = "agixt_1369" →
        ∀ pe ∈ patchFilesOf t, ∃ rr, pe.2 = RunEvent.completed rr) →
      ∃ r, runFlexible tags = Except.ok r := by
  intro tags
  induction tags with
  | nil => intro _; exact ⟨_, rfl⟩
  | cons t rest ih =>
    intro hagixt
    obtain ⟨tr, hT⟩ := evalTagFlexible_ok (hagixt t (List.mem_cons_self _ _))
    obtain ⟨r', hR⟩ := ih (fun t' ht' => hagixt t' (List.mem_cons_of_mem _ ht'))
    cases tr with
    | noPatches => exact ⟨r', by simp [runFlexible, hT, hR]⟩
    | skipped =>
      exact ⟨{ r' with skippedTags := t.name :: r'.skippedTags },
        by simp [runFlexible, hT, hR]⟩
    | evaluated e =>
      exact ⟨{ trialRecords := e.records.map (fun pr => (t.name, pr.1, pr.2)) ++ r'.trialRecords
               skippedTags := r'.skippedTags
               globalSuccess := e.successCount + r'.globalSuccess
               globalTotal := e.totalCount + r'.globalTotal },
        by simp [runFlexible, hT, hR]⟩

/-- Every record a completed run reports carries the name of one of the
run's tags. -/
theorem runFlexible_record_tags :
    ∀ (tags : List TagRun) (r : FlexReport), runFlexible tags = Except.ok r →
      ∀ rec ∈ r.trialRecords, rec.1 ∈ tags.map TagRun.name := by
  intro tags
  induction tags with
  | nil =>
    intro r h rec hrec
    simp only [runFlexible] at h
    injection h with h
    subst h
    cases hrec
  | cons t rest ih =>
    intro r h rec hrec
    simp only [runFlexible] at h
    cases hT : evalTagFlexible t with
    | error e => rw [hT] at h; simp at h
    | ok tr =>
      rw [hT] at h
      cases hR : runFlexible rest with
      | error e => rw [hR] at h; simp at h
      | ok r' =>
        rw [hR] at h
        cases tr with
        | noPatches =>
          simp only [] at h
          injection h with h
          subst h
          exact List.mem_cons_of_mem _ (ih r' hR rec hrec)
        | skipped =>
          simp only [] at h
          injection h with h
          subst h
          exact List.mem_cons_of_mem _ (ih r' hR rec hrec)
        | evaluated e =>
          simp only [] at h
          injection h with h
          subst h
          rcases List.mem_append.mp hrec with hm | hm
          · obtain ⟨pr, _, hpr⟩ := List.mem_map.mp hm
            rw [← hpr]
            exact List.mem_cons_self _ _
          · exact List.mem_cons_of_mem _ (ih r' hR rec hm)

/-- `countP` of the equality test is 1 on a duplicate-free list containing
the element. -/
theorem countP_beq_eq_one_of_nodup {l : List String} {a : String}
    (hnd : l.Nodup) (ha : a ∈ l) : l.countP (fun x => x == a) = 1 := by
  induction l with
  | nil => cases ha
  | cons x xs ih =>
    rw [List.nodup_cons] at hnd
    rcases List.mem_cons.mp ha with h | h
    · subst h
      rw [List.countP_cons_of_pos _ _ (by simp)]
      have hz : xs.countP (fun y => y == a) = 0 := by
        rw [List.countP_eq_zero]
        intro y hy
        simp only [beq_iff_eq]
        intro hya
        subst hya
        exact hnd.1 hy
      rw [hz]
    · have hxa : ¬((fun y => y == a) x = true) := by
        simp only [beq_iff_eq]
        intro hxa
        subst hxa
        exact hnd.1 h
      rw [List.countP_cons_of_neg (fun y => y == a) xs hxa]
      exact ih hnd.2 h

/-- Inversion of the tag loop body when it produced per-tag counters. -/
theorem evalTagFlexible_evaluated_inv {t : TagRun} {e : TagEval}
    (h : evalTagFlexible t = Except.ok (TagResult.evaluated e)) :
    runPatchesFlexible t.name (patchFilesOf t) = Except.ok e.records ∧
    e.successCount = (e.records.filter (fun pr => pr.2 == Label.SUCCESS)).length ∧
    e.totalCount = (patchFilesOf t).length := by
  unfold evalTagFlexible at h
  by_cases h1 : (patchFilesOf t).isEmpty = true
  · simp [h1] at h
  · by_cases h2 : imageAvailableFlexible t = true
    · rw [if_neg h1, if_pos h2] at h
      cases hR : runPatchesFlexible t.name (patchFilesOf t) with
      | error er => rw [hR] at h; simp at h
      | ok rs =>
        rw [hR] at h
        simp only [] at h
        injection h with h
        injection h with h
        subst h
        exact ⟨rfl, rfl, rfl⟩
    · rw [if_neg h1, if_neg h2] at h
      simp at h

/-- The global counters of a completed flexible run agree with its record
list: `global_success` counts the SUCCESS records and `global_total`
counts all records. -/
theorem runFlexible_counts :
    ∀ (tags : List TagRun) (r : FlexReport), runFlexible tags = Except.ok r →
      r.globalSuccess = r.trialRecords.countP (fun x => x.2.2 == Label.SUCCESS) ∧
      r.globalTotal = r.trialRecords.length := by
  intro tags
  induction tags with
  | nil =>
    intro r h
    simp only [runFlexible] at h
    injection h with h
    subst h
    exact ⟨rfl, rfl⟩
  | cons t rest ih =>
    intro r h
    simp only [runFlexible] at h
    cases hT : evalTagFlexible t with
    | error e => rw [hT] at h; simp at h
    | ok tr =>
      rw [hT] at h
      cases hR : runFlexible rest with
      | error e => rw [hR] at h; simp at h
      | ok r' =>
        rw [hR] at h
        obtain ⟨ihS, ihT⟩ := ih r' hR
        cases tr with
        | noPatches =>
          simp only [] at h
          injection h with h
          subst h
          exact ⟨ihS, ihT⟩
        | skipped =>
          simp only [] at h
          injection h with h
          subst h
          exact ⟨ihS, ihT⟩
        | evaluated e =>
          simp only [] at h
          injection h with h
          subst h
          obtain ⟨hrec, hsc, htc⟩ := evalTagFlexible_evaluated_inv hT
          have hlen : e.records.length = (patchFilesOf t).length := by
            have hn := congrArg List.length
              (runPatchesFlexible_names t.name (patchFilesOf t) e.records hrec)
            simpa using hn
          constructor
          · show e.successCount + r'.globalSuccess = _
            rw [List.countP_append, List.countP_map, ihS, hsc,
              ← List.countP_eq_length_filter]
            rfl
          · show e.totalCount + r'.globalTotal = _
            rw [List.length_append, List.length_map, ihT, htc, hlen]

/-! ## Concrete runs used as counterexamples and witnesses -/

/-- A validation event: exit 0 printing a success marker. -/
def evSuccess : RunEvent := .completed ⟨0, "PATCH SUCCEEDED", ""⟩

/-- A tag whose image is unavailable: the pull hits the registry rate
limit; the directory holds one patch file. -/
def rateLimitedTag : TagRun :=
  ⟨"t1", [("p1.patch", evSuccess)], false, .completed 1 "toomanyrequests: Rate Limit exceeded"⟩

/-- Two tags, image present remotely, one succeeding patch each. -/
def twoPerfectTags : List TagRun :=
  [⟨"tagA", [("a.patch", evSuccess)], false, .completed 0 ""⟩,
   ⟨"tagB", [("b.patch", evSuccess)], false, .completed 0 ""⟩]

/-- An `agixt_1369` tag whose single trial times out. -/
def agixtTimeoutTag : TagRun :=
  ⟨"agixt_1369", [("p.patch", .timedOut)], true, .completed 0 ""⟩

/-- A tag whose `docker pull` exits non-zero, followed by a healthy tag. -/
def pullFailThenGoodTags : List TagRun :=
  [⟨"bad", [("x.patch", evSuccess)], true, .completed 1 "manifest unknown"⟩,
   ⟨"good", [("y.patch", evSuccess)], true, .completed 0 ""⟩]

/-! ## Claim theorems -/

/-- **C1, counterexample.** The spec's rule "SUCCESS iff exit code 0 and no
failure marker in stdout or stderr" fails on the code in both directions:
a run with exit code 0 and clean output but no success marker is classified
FAILED, and a run with a success marker in stdout but `FAILED` in stderr is
classified SUCCESS because only stdout is scanned. -/
theorem classify_spec_rule_counterexample :
    (specClaimSuccess ⟨0, "all checks passed", ""⟩ = true ∧
      classifyCompleted baseSuccessMarkers ⟨0, "all checks passed", ""⟩ = Label.FAILED) ∧
    (specClaimSuccess ⟨0, "PATCH SUCCEEDED", "FAILED"⟩ = false ∧
      classifyCompleted baseSuccessMarkers ⟨0, "PATCH SUCCEEDED", "FAILED"⟩ = Label.SUCCESS) := by
  decide

/-- **C1, amended.** A completed run is classified SUCCESS iff its exit
code is 0, `"FAILED"` does not occur in stdout, and at least one
configured success marker occurs in stdout; stderr is never consulted.
In particular any run whose stdout contains `"FAILED"` is classified
FAILED (so exit code 0 plus a `FAILED` marker is FAILURE, as the spec's
example demands). -/
theorem classify_success_requires_marker_and_ignores_stderr
    (markers : List String) (r : RawResult) :
    (classifyCompleted markers r = Label.SUCCESS ↔
      (r.returncode = 0 ∧ containsSub r.stdout "FAILED" = false ∧
        markers.any (fun m => containsSub r.stdout m) = true)) ∧
    (containsSub r.stdout "FAILED" = true → classifyCompleted markers r = Label.FAILED) := by
  unfold classifyCompleted
  by_cases hf : containsSub r.stdout "FAILED" = true
  · simp [hf]
  · have hf' : containsSub r.stdout "FAILED" = false := by
      cases h : containsSub r.stdout "FAILED"
      · rfl
      · exact absurd h hf
    by_cases hrc : r.returncode = 0
    · by_cases hm : markers.any (fun m => containsSub r.stdout m) = true
      · simp [hf', hrc, hm]
      · simp [hf', hrc, hm]
    · simp [hf', hrc]

/-- **C1, witness.** The amended rule at a concrete run: exit 0 with the
marker `PATCH SUCCEEDED` in stdout classifies SUCCESS. -/
theorem classify_success_requires_marker_and_ignores_stderr_witness :
    classifyCompleted baseSuccessMarkers ⟨0, "PATCH SUCCEEDED", ""⟩ = Label.SUCCESS :=
  (classify_success_requires_marker_and_ignores_stderr baseSuccessMarkers
    ⟨0, "PATCH SUCCEEDED", ""⟩).1.mpr (by refine ⟨rfl, ?_, ?_⟩ <;> decide)

/-- **C3, counterexample.** In `eval_patches.py` the `TimeoutExpired`
handler records the trial as FAILED, not TIMEOUT. -/
theorem original_timeout_recorded_as_failed :
    originalGeneralTrial RunEvent.timedOut = Except.ok Label.FAILED ∧
    Label.FAILED ≠ Label.TIMEOUT ∧
    originalGeneralTimeoutSecs = some 300 := by
  decide

/-- **C3, amended.** A trial that exceeds its 300-second timeout is never
recorded SUCCESS, but the recorded outcome differs by call site: the
flexible script's general branch records TIMEOUT; `eval_patches.py`'s
general branch records FAILED; the flexible script's `agixt_1369` branch
has no handler, so the timeout kills the run; and `eval_patches.py`'s
`agixt_1369` branch passes no timeout at all, so its validation command is
never interrupted. -/
theorem timeout_is_never_success_across_evaluators :
    flexibleGeneralTrial RunEvent.timedOut = Label.TIMEOUT ∧
    flexibleGeneralTrial RunEvent.timedOut ≠ Label.SUCCESS ∧
    originalGeneralTrial RunEvent.timedOut = Except.ok Label.FAILED ∧
    originalGeneralTrial RunEvent.timedOut ≠ Except.ok Label.SUCCESS ∧
    flexibleAgixtTrial RunEvent.timedOut = Except.error "TimeoutExpired" ∧
    originalAgixtTimeoutSecs = none ∧
    flexibleGeneralTimeoutSecs = some 300 := by
  decide

/-- **C5, counterexample.** A pull that fails with registry rate limiting
— the spec's sole retry-eligible *transient* mode — is not retried at all:
the flexible script makes exactly one pull attempt and immediately skips
the tag, recording no `ENVIRONMENT_UNAVAILABLE` (or any) trial outcome. -/
theorem rate_limited_pull_not_retried :
    pullSkipReason rateLimitedTag.pullEvent = some SkipReason.rateLimit ∧
    pullAttemptsFlexible rateLimitedTag = 1 ∧
    evalTagFlexible rateLimitedTag = Except.ok TagResult.skipped := by
  decide

/-- **C5, amended.** No pull-failure mode is retried: for any tag whose
image is not local and whose single pull fails — transient rate limiting
included — the flexible script makes exactly one pull attempt and skips
the whole tag, so no validator runs and no trial outcome is recorded for
its patches; the failure mode only selects the warning message. -/
theorem flexible_pull_failures_skip_without_retry (t : TagRun)
    (hl : t.localExists = false)
    (hp : pull_image_safe t.pullEvent = false)
    (hne : (patchFilesOf t).isEmpty = false) :
    pullAttemptsFlexible t = 1 ∧
    evalTagFlexible t = Except.ok TagResult.skipped ∧
    pullSkipReason t.pullEvent ≠ none := by
  refine ⟨by simp [pullAttemptsFlexible, hl], ?_, ?_⟩
  · have hav : imageAvailableFlexible t = false := by
      simp [imageAvailableFlexible, hl, hp]
    simp only [evalTagFlexible, hne, hav]
    simp
  · cases hev : t.pullEvent with
    | completed rc msg =>
      have : (rc == 0) = false := by
        rw [hev] at hp
        simpa [pull_image_safe] using hp
      simp only [pullSkipReason, this]
      split_ifs <;> simp_all
    | timedOut => simp [pullSkipReason]
    | raised e => simp [pullSkipReason]

/-- **C5, witness.** The amended statement at the rate-limited tag. -/
theorem flexible_pull_failures_skip_without_retry_witness :
    pullAttemptsFlexible rateLimitedTag = 1 ∧
    evalTagFlexible rateLimitedTag = Except.ok TagResult.skipped ∧
    pullSkipReason rateLimitedTag.pullEvent ≠ none :=
  flexible_pull_failures_skip_without_retry rateLimitedTag
    (by decide) (by decide) (by decide)

/-- **C9, confirmed.** The `TimeoutExpired` handlers of both evaluator
scripts enumerate every container running on the daemon (`docker ps -q`,
unfiltered) and issue `docker rm -f` for each non-blank id — including
containers that belong to other trials or unrelated workloads. -/
theorem timeout_handler_removes_every_running_container
    (ids : List String) (cid : String) (hm : cid ∈ ids)
    (hs : stripNonEmpty cid = true) :
    ["docker", "rm", "-f", cid] ∈ timeoutCleanupCommands ids ∧
    dockerPsQuery = "docker ps -q" := by
  refine ⟨?_, rfl⟩
  unfold timeoutCleanupCommands
  exact List.mem_map_of_mem _ (List.mem_filter.mpr ⟨hm, hs⟩)

/-- **C9, witness.** A daemon running two containers: the second (not the
timed-out trial's) is also force-removed. -/
theorem timeout_handler_removes_every_running_container_witness :
    ["docker", "rm", "-f", "ffff"] ∈ timeoutCleanupCommands ["aaaa", "ffff"] ∧
    dockerPsQuery = "docker ps -q" :=
  timeout_handler_removes_every_running_container ["aaaa", "ffff"] "ffff"
    (by decide) (by decide)

/-- **C10, confirmed.** In the auto-code-rover evaluator the canonical
repository's content after a trial equals its content before: a backup is
taken before the patch is applied, and the `finally` block restores it on
every exit path (clean completion, `git apply` failure, reproduce failure,
unexpected exception), afterwards removing the backup directory. -/
theorem acr_trial_restores_canonical_repo {α : Type}
    (patch refac repro : α → α) (m : AcrMode) (c : α) (b : Option α) :
    ((apply_patch_and_check patch refac repro m ⟨some c, b⟩).2).repo = some c ∧
    (m ≠ AcrMode.noPatchFile → m ≠ AcrMode.noMetaFile →
      (apply_patch_and_check patch refac repro m ⟨some c, b⟩).2 = ⟨some c, none⟩) := by
  cases m with
  | noPatchFile => exact ⟨rfl, fun h _ => absurd rfl h⟩
  | noMetaFile => exact ⟨rfl, fun _ h => absurd rfl h⟩
  | gitApplyFails => exact ⟨rfl, fun _ _ => rfl⟩
  | raisedAfterApply => exact ⟨rfl, fun _ _ => rfl⟩
  | cleanRun ok => exact ⟨rfl, fun _ _ => rfl⟩

/-- **C10, witness.** A concrete trial (content `0`, patch `+1`, raised
exception after the patch applied) ends with the repository restored to
`0` and the backup directory gone. -/
theorem acr_trial_restores_canonical_repo_witness :
    ((apply_patch_and_check (fun c => c + 1) id id AcrMode.raisedAfterApply
        (⟨some 0, none⟩ : RepoFS Nat)).2).repo = some 0 ∧
    (apply_patch_and_check (fun c => c + 1) id id AcrMode.raisedAfterApply
        (⟨some 0, none⟩ : RepoFS Nat)).2 = ⟨some 0, none⟩ := by
  have h := acr_trial_restores_canonical_repo (fun c => c + 1) id id
    AcrMode.raisedAfterApply 0 (none : Option Nat)
  exact ⟨h.1, h.2 (by decide) (by decide)⟩

/-- **C7, counterexample.** In the auto-code-rover evaluator the patch is
applied by `git apply` directly inside the task's canonical repository
checkout (`meta["setup_info"]["repo_path"]`), not in a per-trial sandbox:
with initial content `0` and a patch that rewrites it to `1`, the trial
passes through a state in which the canonical repository holds the patched
content. -/
theorem acr_trial_mutates_canonical_repo :
    (⟨some 1, some 0⟩ : RepoFS Nat) ∈
      acrTrialStates (fun c => c + 1) id id (AcrMode.cleanRun true) ⟨some 0, none⟩ ∧
    (⟨some 1, some 0⟩ : RepoFS Nat).repo ≠ some 0 := by
  decide

/-- **C7, amended.** The docker-based evaluators run each trial in an
ephemeral container (`docker run --rm`) whose only volume mount is the
patch directory, leaving the canonical image untouched; the
auto-code-rover evaluator instead mutates the canonical repository in
place during the trial and only restores its original content when the
trial ends. -/
theorem acr_patches_canonical_repo_docker_uses_ephemeral {α : Type}
    (patch refac repro : α → α) (m : AcrMode) (c : α) (b : Option α)
    (patchDirAbs patchFile dockerImage : String) :
    ((apply_patch_and_check patch refac repro m ⟨some c, b⟩).2).repo = some c ∧
    "--rm" ∈ dockerRunCmdGeneral patchDirAbs patchFile dockerImage := by
  refine ⟨?_, by simp [dockerRunCmdGeneral]⟩
  cases m <;> rfl

/-- **C2, counterexample.** A task (tag `t1`) with one candidate patch
whose environment image cannot be obtained (rate-limited pull): the run
completes, but its aggregate contains ZERO trial results for the pair
`(t1, p1.patch)` — the tag is skipped wholesale and only its name is
listed, so the attempted pair is silently dropped instead of receiving an
`ENVIRONMENT_UNAVAILABLE` entry. -/
theorem flexible_unavailable_image_records_nothing :
    runFlexible [rateLimitedTag] =
      Except.ok ⟨[], ["t1"], 0, 0⟩ ∧
    pairCount ⟨[], ["t1"], 0, 0⟩ "t1" "p1.patch" = 0 := by
  decide

/-- **C6, counterexample.** A trial-level error does abort the whole run
in `eval_patches.py`: the first tag's `docker pull` exits non-zero, the
`check=True` call raises `CalledProcessError`, nothing catches it, and the
run dies — the second (healthy) tag is never evaluated and no aggregate
report is produced. -/
theorem original_pull_failure_aborts_run :
    runOriginal pullFailThenGoodTags = Except.error "CalledProcessError" ∧
    pullSkipReason (PullEvent.completed 1 "manifest unknown") ≠ none := by
  decide

/-- **C8, counterexample.** The orchestrator exits non-zero on a failure
that is not orchestration-level: the catalog is readable (setup passes)
and the container engine reachable (the pull succeeds, the image is even
local), yet a single trial timing out in the flexible script's
`agixt_1369` branch kills the child evaluator, and the orchestrator maps
the child's non-zero status to its own exit 1. -/
theorem trial_timeout_causes_nonzero_exit :
    mainExitCode true false (some (childExitCode [agixtTimeoutTag])) = 1 ∧
    runFlexible [agixtTimeoutTag] = Except.error "TimeoutExpired" := by
  decide

/-- **C8, amended.** The orchestrator exits 0 whenever the child
evaluation run completes, regardless of how many individual trials failed,
timed out, or were skipped; it exits non-zero when its setup check fails
(catalog unreadable), when the child cannot be launched, and also whenever
the child aborts mid-run — which an uncaught trial exception can cause. -/
theorem orchestrator_exits_zero_on_completed_run
    (tags : List TagRun) (r : FlexReport) (h : runFlexible tags = Except.ok r) :
    mainExitCode true false (some (childExitCode tags)) = 0 ∧
    (∀ child, mainExitCode false false child = 1) ∧
    mainExitCode true false none = 1 := by
  refine ⟨?_, fun child => rfl, rfl⟩
  unfold mainExitCode run_evaluation childExitCode
  rw [h]
  rfl

/-- **C8, witness.** A completed run (one healthy tag, its only trial a
plain FAILURE) still exits 0. -/
theorem orchestrator_exits_zero_on_completed_run_witness :
    mainExitCode true false
      (some (childExitCode [⟨"t", [("p.patch", .completed ⟨1, "", ""⟩)], true, .completed 0 ""⟩])) = 0 :=
  (orchestrator_exits_zero_on_completed_run
    [⟨"t", [("p.patch", .completed ⟨1, "", ""⟩)], true, .completed 0 ""⟩]
    ⟨[("t", "p.patch", Label.FAILED)], [], 0, 1⟩ (by decide)).1

/-- **C4, counterexample.** Two tags, one attempted patch each, both
successful.  The sum of successes over the sum of attempts is `2/2 = 1`,
but `eval_patches.py`'s final `Plausible score` line prints
`grand_total_avg` — the SUM of the per-tag averages — which here is `2`.
The reported global score is not the global success ratio. -/
theorem original_global_score_is_sum_of_averages :
    (runOriginal twoPerfectTags).map (fun r => (r.globalSuccess, r.globalTotal)) =
      Except.ok (2, 2) ∧
    (runOriginal twoPerfectTags).map finalScoreOriginal = Except.ok 2 ∧
    (runOriginal twoPerfectTags).map
      (fun r => ((r.globalSuccess : ℚ) / (r.globalTotal : ℚ))) = Except.ok 1 ∧
    (2 : ℚ) ≠ 1 := by
  refine ⟨by decide, ?_, ?_, by norm_num⟩
  · have h : (runOriginal twoPerfectTags).map finalScoreOriginal =
        Except.ok (avgScore 1 1 + (avgScore 1 1 + 0)) := rfl
    rw [h]
    norm_num [avgScore]
  · have h : (runOriginal twoPerfectTags).map
        (fun r => ((r.globalSuccess : ℚ) / (r.globalTotal : ℚ))) =
        Except.ok ((2 : ℚ) / (2 : ℚ)) := rfl
    rw [h]
    norm_num

/-- **C2, amended.** In a flexible run that completes, every (tag, patch
file) pair of a tag whose environment image WAS obtained appears in the
aggregate exactly once (internal exceptions in the general branch still
yield their one ERROR record); pairs of a tag whose image could not be
obtained get no record at all — the whole tag is skipped and only its name
is listed among the skipped tags. -/
theorem flexible_exactly_one_record_per_available_pair :
    ∀ (tags : List TagRun) (r : FlexReport),
      runFlexible tags = Except.ok r →
      (tags.map TagRun.name).Nodup →
      ∀ t ∈ tags, imageAvailableFlexible t = true →
        ((patchFilesOf t).map Prod.fst).Nodup →
        ∀ pf ∈ (patchFilesOf t).map Prod.fst,
          pairCount r t.name pf = 1 := by
  intro tags
  induction tags with
  | nil =>
    intro r h hnd t ht
    cases ht
  | cons t0 rest ih =>
    intro r h hnd t ht hav hfnd pf hpf
    simp only [runFlexible] at h
    cases hT : evalTagFlexible t0 with
    | error e => rw [hT] at h; simp at h
    | ok tr =>
      rw [hT] at h
      cases hR : runFlexible rest with
      | error e => rw [hR] at h; simp at h
      | ok r' =>
        rw [hR] at h
        have hnd' : (t0.name :: rest.map TagRun.name).Nodup := by
          simpa only [List.map_cons] using hnd
        have hnds := List.nodup_cons.mp hnd'
        rcases List.mem_cons.mp ht with rfl | htr
        · have hne : (patchFilesOf t).isEmpty = false := by
            cases hE : patchFilesOf t with
            | nil => rw [hE] at hpf; cases hpf
            | cons a l => simp [hE]
          obtain ⟨rs, hrs, htr1⟩ := evalTagFlexible_available hne hav hT
          subst htr1
          simp only [] at h
          injection h with h
          subst h
          unfold pairCount
          dsimp only
          rw [List.countP_append]
          have hstamp : (List.map (fun pr => (t.name, pr.1, pr.2)) rs).countP
              (fun x => x.1 == t.name && x.2.1 == pf) = 1 := by
            rw [List.countP_map]
            have hpeel : rs.countP
                ((fun x => x.1 == t.name && x.2.1 == pf) ∘
                  (fun pr => (t.name, pr.1, pr.2))) =
                rs.countP (fun pr => pr.1 == pf) := by
              apply List.countP_congr
              intro pr _
              simp [Function.comp]
            have hmap : (rs.map Prod.fst).countP (fun s => s == pf) =
                rs.countP (fun pr => pr.1 == pf) := List.countP_map _ _ _
            rw [hpeel, ← hmap]
            rw [runPatchesFlexible_names t.name (patchFilesOf t) rs hrs]
            exact countP_beq_eq_one_of_nodup hfnd hpf
          have hrest0 : r'.trialRecords.countP
              (fun x => x.1 == t.name && x.2.1 == pf) = 0 := by
            rw [List.countP_eq_zero]
            intro x hx
            have hxin := runFlexible_record_tags rest r' hR x hx
            have hxne : x.1 ≠ t.name := fun hEq => hnds.1 (hEq ▸ hxin)
            simp [hxne]
          rw [hstamp, hrest0]
        · have htname : t.name ≠ t0.name := by
            intro hEq
            exact hnds.1 (hEq ▸ List.mem_map_of_mem TagRun.name htr)
          have hprev := ih r' hR hnds.2 t htr hav hfnd pf hpf
          cases tr with
          | noPatches =>
            simp only [] at h
            injection h with h
            subst h
            exact hprev
          | skipped =>
            simp only [] at h
            injection h with h
            subst h
            exact hprev
          | evaluated e =>
            simp only [] at h
            injection h with h
            subst h
            unfold pairCount at hprev ⊢
            dsimp only
            rw [List.countP_append]
            have hstamp0 : (List.map (fun pr => (t0.name, pr.1, pr.2)) e.records).countP
                (fun x => x.1 == t.name && x.2.1 == pf) = 0 := by
              rw [List.countP_eq_zero]
              intro x hx
              obtain ⟨pr, _, hpr⟩ := List.mem_map.mp hx
              have hx1 : x.1 = t0.name := by rw [← hpr]
              simp [hx1, htname.symm]
            rw [hstamp0, hprev]

/-- **C2, amended, witness.** One available tag with one patch file: its
pair has exactly one record in the completed run. -/
theorem flexible_exactly_one_record_per_available_pair_witness :
    pairCount ⟨[("t", "p.patch", Label.FAILED)], [], 0, 1⟩ "t" "p.patch" = 1 :=
  flexible_exactly_one_record_per_available_pair
    [⟨"t", [("p.patch", .completed ⟨1, "", ""⟩)], true, .completed 0 ""⟩]
    ⟨[("t", "p.patch", Label.FAILED)], [], 0, 1⟩
    (by decide) (by decide)
    ⟨"t", [("p.patch", .completed ⟨1, "", ""⟩)], true, .completed 0 ""⟩
    (by decide) (by decide) (by decide) "p.patch" (by decide)

/-- **C4, amended.** The flexible script's final overall score equals the
number of successful trials divided by the number of attempted trials
(Σ successes / Σ attempted) whenever any trial ran, with the zero-attempt
run reported as N/A instead of dividing by zero; the per-task score is
successes/attempted, guarded at zero.  (`eval_patches.py`'s final
`Plausible score`, by contrast, prints the SUM of per-task averages — see
the counterexample.) -/
theorem flexible_overall_score_is_global_ratio
    (tags : List TagRun) (r : FlexReport)
    (h : runFlexible tags = Except.ok r) (hpos : 0 < r.globalTotal) :
    overallScoreFlexible r =
      some (((r.trialRecords.countP (fun x => x.2.2 == Label.SUCCESS) : ℚ)) /
        ((r.trialRecords.length : ℚ))) ∧
    r.globalSuccess = r.trialRecords.countP (fun x => x.2.2 == Label.SUCCESS) ∧
    r.globalTotal = r.trialRecords.length ∧
    (∀ s n : ℕ, 0 < n → avgScore s n = (s : ℚ) / (n : ℚ)) ∧
    (∀ s : ℕ, avgScore s 0 = 0) := by
  obtain ⟨hS, hT⟩ := runFlexible_counts tags r h
  refine ⟨?_, hS, hT, fun s n hn => by simp [avgScore, hn], fun s => by simp [avgScore]⟩
  rw [overallScoreFlexible, if_pos hpos, hS, hT]

/-- **C4, amended, witness.** A completed run with one success out of two
attempts reports overall score `1/2`. -/
theorem flexible_overall_score_is_global_ratio_witness :
    overallScoreFlexible ⟨[("t", "a.patch", Label.SUCCESS), ("t", "b.patch", Label.FAILED)],
      [], 1, 2⟩ = some ((1 : ℚ) / 2) := by
  have h := flexible_overall_score_is_global_ratio
    [⟨"t", [("a.patch", evSuccess), ("b.patch", .completed ⟨1, "", ""⟩)], true, .completed 0 ""⟩]
    ⟨[("t", "a.patch", Label.SUCCESS), ("t", "b.patch", Label.FAILED)], [], 1, 2⟩
    (by decide) (by decide)
  have hc : List.countP (fun x => x.2.2 == Label.SUCCESS)
      ([("t", "b.patch", Label.FAILED)] : List (String × String × Label)) = 0 := by decide
  rw [h.1]
  norm_num [hc]

/-- **C6, amended.** In the flexible script's general branch, every
trial-level error is contained: an unexpected exception is converted to
that trial's ERROR record, a timeout to its TIMEOUT record, and a run
whose agixt-named tags only see completed subprocesses always runs to
completion.  The containment does NOT hold elsewhere: `eval_patches.py`
aborts the whole run on an image pull failure (see the counterexample),
and an exception in either script's `agixt_1369` branch is uncaught. -/
theorem flexible_general_branch_contains_trial_errors
    (tags : List TagRun)
    (hagixt : ∀ t ∈ tags, t.name = "agixt_1369" →
      ∀ pe ∈ patchFilesOf t, ∃ rr, pe.2 = RunEvent.completed rr) :
    (∃ r, runFlexible tags = Except.ok r) ∧
    (∀ e, flexibleGeneralTrial (RunEvent.raised e) = Label.ERROR) ∧
    flexibleGeneralTrial RunEvent.timedOut = Label.TIMEOUT ∧
    (∀ e, flexibleAgixtTrial (RunEvent.raised e) = Except.error e) := by
  exact ⟨runFlexible_ok tags hagixt, fun e => rfl, rfl, fun e => rfl⟩

/-- **C6, amended, witness.** A run whose only trial raises an internal
exception in the general branch still completes. -/
theorem flexible_general_branch_contains_trial_errors_witness :
    (∃ r, runFlexible [⟨"t1", [("p.patch", .raised "boom")], true, .completed 0 ""⟩] =
      Except.ok r) ∧
    flexibleGeneralTrial (RunEvent.raised "boom") = Label.ERROR := by
  have h := flexible_general_branch_contains_trial_errors
    [⟨"t1", [("p.patch", .raised "boom")], true, .completed 0 ""⟩]
    (by
      intro t ht hname
      rcases List.mem_singleton.mp ht with rfl
      exact absurd hname (by decide))
  exact ⟨h.1, h.2.1 "boom"⟩

end AgentBench
